import Mathlib

/-!
Shallow embedding of the go-lumber HTTP servers and client, for checking the
natural-language specification against the code.

Namespace `ES` embeds the Elasticsearch-bulk compatibility server
(package `es`): the NDJSON decode loop of `httpHandler.serveBulk`, the
group-forming logic with Go slice-capacity semantics, and the background
drain goroutine as a linear trace of effects (writes to the response,
enqueues onto the ingestion channel, waits on batch gates).

Namespace `HTTPSrv` embeds the version-dispatching lumberjack-over-HTTP
server (package `http`): `httpHandler.ServeHTTP`/`serveBulk`, the keepalive
wait loop, and the `chunkedACKWriter` decorator.

Namespace `Client` embeds the single-shot HTTP push client
(`client/v2/http.go`): `NewHTTPClient`, `HttpClient.Send`, `httpConn.Push`.

Events and metadata documents are abstracted by a type parameter `α`
(the servers never inspect their contents beyond attaching metadata to the
event, modelled by pairing).
-/

namespace ES

/-- One result of `decoder.Decode` in the NDJSON stream: a successfully
decoded JSON document, or a decode error terminating the loop. -/
inductive Tok (α : Type) where
  | ok (doc : α)
  | err
deriving DecidableEq

/-- The `info` struct sent over the `batches` channel: the batch events
(each event paired with the metadata document installed at
`evt["@metadata"] = meta`, modelled as the pair `(evt, meta)`), together
with the group's metadata list. -/
structure Info (α : Type) where
  batch : List (α × α)
  meta : List α
deriving DecidableEq

/-- One observable effect of `serveBulk`: a write of a string to the
response writer, an enqueue of a batch onto the ingestion channel
`h.ch`, or a wait on a batch's gate (`<-batch.Await()`). -/
inductive Act (α : Type) where
  | write (s : String)
  | enq (batch : List (α × α))
  | await (batch : List (α × α))
deriving DecidableEq

/-- Go slice capacity after `append` of one element: unchanged while
`len < cap`, otherwise grown (doubling, from 0 to 1). Only reachable for
`split = 0`; for `split > 0` the working slices never outgrow `split`. -/
def appendCap (len c : Nat) : Nat :=
  if len < c then c else if c = 0 then 1 else 2 * c

/-- The decode loop of `serveBulk` (package es), lines 186-216: repeatedly
decode a metadata document and a source document, attach the metadata to
the event, accumulate both, and ship the group as a batch when
`len(events) == cap(events)`; on end of input or on a decode error, break
and flush any non-empty residual group (lines 214-216). Returns the list
of groups sent over the `batches` channel in formation order, and whether
the loop terminated on a decode error. `evs`/`ms` are the working
`events`/`metas` slices and `c` is `cap(events)`. -/
def formGroupsAux (split : Nat) (stream : List (Tok α))
    (evs : List (α × α)) (ms : List α) (c : Nat) : List (Info α) × Bool :=
  match stream with
  | [] => (if evs.length > 0 then [⟨evs, ms⟩] else [], false)
  | Tok.err :: _ => (if evs.length > 0 then [⟨evs, ms⟩] else [], true)
  | Tok.ok _ :: [] => (if evs.length > 0 then [⟨evs, ms⟩] else [], true)
  | Tok.ok _ :: Tok.err :: _ =>
      (if evs.length > 0 then [⟨evs, ms⟩] else [], true)
  | Tok.ok m :: Tok.ok e :: rest =>
      let c' := appendCap evs.length c
      let evs' := evs ++ [(e, m)]
      let ms' := ms ++ [m]
      if evs'.length = c' then
        let r := formGroupsAux split rest [] [] split
        (⟨evs', ms'⟩ :: r.1, r.2)
      else
        formGroupsAux split rest evs' ms' c'

/-- The decode loop started on fresh slices `make(..., 0, h.split)`. -/
def formGroups (split : Nat) (stream : List (Tok α)) : List (Info α) × Bool :=
  formGroupsAux split stream [] [] split

/-- The per-item status entry written for the first item of the response
(`writer.Write([]byte(...)` at line 171). -/
def statusFirst : String := "\x7b\"created\":\x7b\"status\": 200\x7d\x7d"

/-- The comma-prefixed per-item status entry (line 176). -/
def statusNext : String := ",\x7b\"created\":\x7b\"status\": 200\x7d\x7d"

/-- One iteration of the drain goroutine's `for info := range batches`
loop (lines 157-182): enqueue the batch onto `h.ch`; in silent mode, or
when the group's metadata list is empty, `continue`; otherwise write one
status entry per metadata document (the very first entry of the whole
response unprefixed, every other entry comma-prefixed) and then wait on
the batch's gate. Returns the effect trace of the iteration and the
updated `first` flag. -/
def drainStep (silent : Bool) (info : Info α) (first : Bool) :
    List (Act α) × Bool :=
  if silent then ([Act.enq info.batch], first)
  else if info.meta.length = 0 then ([Act.enq info.batch], first)
  else
    let ws :=
      if first then
        statusFirst :: List.replicate (info.meta.length - 1) statusNext
      else
        List.replicate info.meta.length statusNext
    (Act.enq info.batch :: ws.map Act.write ++ [Act.await info.batch],
     if first then false else first)

/-- The drain goroutine (lines 154-183): process the groups in arrival
order, threading the `first` flag. -/
def drain (silent : Bool) : List (Info α) → Bool → List (Act α)
  | [], _ => []
  | g :: rest, first =>
      (drainStep silent g first).1 ++ drain silent rest (drainStep silent g first).2

/-- An ES-bulk HTTP request as the handler observes it: the method, whether
`Content-Encoding: gzip` is declared, the result of `gzip.NewReader` on the
body when it is (`some e` = construction fails with error text `e`), and
the stream of JSON decode results of the (possibly decompressed) body. -/
structure Request (α : Type) where
  method : String
  contentEncodingGzip : Bool
  gzipErr : Option String
  stream : List (Tok α)

/-- `httpHandler.serveBulk` (package es, lines 117-222) as a response
status plus a linear trace of effects. A gzip-input construction failure
responds 400 with the error text and returns before anything else
(lines 131-141). Otherwise the handler writes the opening of the items
array, runs the decode loop and the drain goroutine, and after
`wg.Wait()` always writes the closing `]}` (line 221). The trace orders
the drain goroutine's effects as that single goroutine performs them. -/
def serveBulk (split : Nat) (silent : Bool) (r : Request α) :
    Nat × List (Act α) :=
  if r.contentEncodingGzip ∧ r.gzipErr.isSome then
    (400, [Act.write (r.gzipErr.getD "")])
  else
    (200, Act.write "\x7b\"items\": [" ::
      (drain silent (formGroups split r.stream).1 true ++ [Act.write "]\x7d"]))

/-- `httpHandler.ServeHTTP` (package es, lines 106-115): HEAD is answered
200 with no body, POST dispatches to `serveBulk`, every other method is
answered 405 with no further effect. -/
def serveHTTP (split : Nat) (silent : Bool) (r : Request α) :
    Nat × List (Act α) :=
  if r.method = "HEAD" then (200, [])
  else if r.method = "POST" then serveBulk split silent r
  else (405, [])

/-- The response-body writes of a trace, in order. -/
def writesOf : List (Act α) → List String
  | [] => []
  | Act.write s :: t => s :: writesOf t
  | Act.enq _ :: t => writesOf t
  | Act.await _ :: t => writesOf t

/-- The batches enqueued onto the ingestion channel by a trace, in order. -/
def enqsOf : List (Act α) → List (List (α × α))
  | [] => []
  | Act.write _ :: t => enqsOf t
  | Act.enq b :: t => b :: enqsOf t
  | Act.await _ :: t => enqsOf t

/-- The gate waits performed by a trace, in order. -/
def awaitsOf : List (Act α) → List (List (α × α))
  | [] => []
  | Act.write _ :: t => awaitsOf t
  | Act.enq _ :: t => awaitsOf t
  | Act.await b :: t => b :: awaitsOf t

/-- The metadata/source pairs the decode loop accepts from a stream: the
maximal prefix of successfully decoded (meta, source) pairs, each
recorded as the stored event `(evt, meta)`. -/
def acceptedPairs : List (Tok α) → List (α × α)
  | [] => []
  | Tok.err :: _ => []
  | Tok.ok _ :: [] => []
  | Tok.ok _ :: Tok.err :: _ => []
  | Tok.ok m :: Tok.ok e :: rest => (e, m) :: acceptedPairs rest

/-- The NDJSON body of a well-formed bulk request holding the given
(metadata, source) pairs: every decode succeeds, alternating. -/
def pairsStream : List (α × α) → List (Tok α)
  | [] => []
  | p :: l => Tok.ok p.1 :: Tok.ok p.2 :: pairsStream l

/-- The group sizes the spec prescribes for `n` events at split
threshold `s`: full groups of `s`, then the non-zero remainder. -/
def groupSizes (s n : Nat) : List Nat :=
  List.replicate (n / s) s ++ (if n % s = 0 then [] else [n % s])

/-- The expected per-item status entries for `n` events: the first
unprefixed, every further entry comma-prefixed. -/
def statusEntries : Nat → List String
  | 0 => []
  | n + 1 => statusFirst :: List.replicate n statusNext

/-- Whether an effect is a gate wait. -/
def isAwait : Act α → Bool
  | Act.await _ => true
  | Act.enq _ => false
  | Act.write _ => false

/-- Whether an effect is a response write. -/
def isWrite : Act α → Bool
  | Act.write _ => true
  | Act.enq _ => false
  | Act.await _ => false

/-- Whether every response write in a trace happens after a gate wait has
already occurred (no write strictly before the first `await`). -/
def writesOnlyAfterAwait (t : List (Act α)) : Bool :=
  (t.takeWhile (fun a => !isAwait a)).all (fun a => !isWrite a)

end ES

namespace HTTPSrv

/-- One observable effect of the version-dispatching handler: codec
construction via the selected version's constructor, `ReadBatch` on the
codec reader, enqueue of the read batch (of `n` events) onto `h.ch`, a
plain write of error text to the response, an underlying keepalive frame
write (`c.w.Keepalive`), a `flusher.Flush()`, or the final `ACK(n)`. -/
inductive Eff where
  | mkCodec
  | readBatch
  | enq (n : Nat)
  | write (s : String)
  | keepaliveWrite
  | flush
  | ack (n : Nat)
deriving DecidableEq

/-- A request to the version-dispatching server as the handler observes
it: the method; the `X-Lumberjack-Version` header (`""` when absent, as
`Header.Get` returns); the outcome of the codec constructor (`some e` =
error `e`); the outcome of `ReadBatch` (error text, or the event count of
the batch); whether the codec's ACK writer supports keepalive; whether
the response writer implements `http.Flusher`; and, for the keepalive
wait loop, the underlying write outcome of each timer fire that wins the
race against the batch gate (the list ends when the gate wins). -/
structure Request where
  method : String
  version : String
  codecErr : Option String
  batchResult : Except String Nat
  writerHasKeepalive : Bool
  respIsFlusher : Bool
  keepaliveErrs : List (Option String)

/-- The `h.versions` table built in `newServer` (lines 298-301): the only
supported protocol version is "2.0". Looking up any other key in the Go
map yields nil. -/
def versions (v : String) : Option Unit :=
  if v = "2.0" then some () else none

/-- `chunkedACKWriter.Keepalive` (lines 446-452): forward the keepalive to
the wrapped ACK writer, and call `c.flusher.Flush()` when (and only when)
that write returned a non-nil error; return the error unchanged. The
second component records whether the flush was performed. -/
def chunkedKeepalive (wErr : Option String) : Option String × Bool :=
  let err := wErr
  if err ≠ none then (err, true) else (err, false)

/-- The keepalive wait loop of `serveBulk` (lines 395-406) on a
keepalive-wrapped writer: while the gate has not been signalled, each
timer fire calls `ljWriter.Keepalive(0)` (the chunked decorator) and the
handler returns immediately when that reports an error. Input: the
underlying write outcome of each timer fire before the gate wins.
Returns the effect trace and whether the loop exited through the gate
(true) rather than through a keepalive error (false). -/
def keepaliveLoop : List (Option String) → List Eff × Bool
  | [] => ([], true)
  | e :: rest =>
      let k := chunkedKeepalive e
      let effs := Eff.keepaliveWrite :: (if k.2 then [Eff.flush] else [])
      if k.1 ≠ none then (effs, false)
      else
        let r := keepaliveLoop rest
        (effs ++ r.1, r.2)

/-- `httpHandler.serveBulk` (package http, lines 351-411) as a response
status plus an effect trace. Absent version header or a version not in
the table: 400 with no effect. Codec construction failure: 503 with the
error text. `ReadBatch` failure: 503 with the error text. Otherwise the
batch is enqueued, the handler waits on the gate (racing the keepalive
timer when keepalive is configured, supported and the response is
flushable), and on gate readiness writes `ACK(N)` with the batch's full
event count. -/
def serveBulk (keepalive : Nat) (r : Request) : Nat × List Eff :=
  if r.version = "" then (400, [])
  else
    match versions r.version with
    | none => (400, [])
    | some _ =>
      match r.codecErr with
      | some e => (503, [Eff.mkCodec, Eff.write e])
      | none =>
        let hasKeepalive :=
          decide (0 < keepalive) && r.writerHasKeepalive && r.respIsFlusher
        match r.batchResult with
        | Except.error e => (503, [Eff.mkCodec, Eff.readBatch, Eff.write e])
        | Except.ok n =>
          let pre := [Eff.mkCodec, Eff.readBatch, Eff.enq n]
          if hasKeepalive then
            let kl := keepaliveLoop r.keepaliveErrs
            if kl.2 then (200, pre ++ kl.1 ++ [Eff.ack n])
            else (200, pre ++ kl.1)
          else (200, pre ++ [Eff.ack n])

/-- `httpHandler.ServeHTTP` (package http, lines 340-349): HEAD is
answered 200 with no body, POST dispatches to `serveBulk`, every other
method is answered 405 with no further effect. -/
def serveHTTP (keepalive : Nat) (r : Request) : Nat × List Eff :=
  if r.method = "HEAD" then (200, [])
  else if r.method = "POST" then serveBulk keepalive r
  else (405, [])

/-- The batch event counts enqueued onto the ingestion channel by a
trace, in order. -/
def enqsOf : List Eff → List Nat
  | [] => []
  | Eff.enq n :: t => n :: enqsOf t
  | Eff.mkCodec :: t => enqsOf t
  | Eff.readBatch :: t => enqsOf t
  | Eff.write _ :: t => enqsOf t
  | Eff.keepaliveWrite :: t => enqsOf t
  | Eff.flush :: t => enqsOf t
  | Eff.ack _ :: t => enqsOf t

end HTTPSrv

namespace Client

/-- An HTTP response as the push client observes it: the numeric status
code and the status text (`resp.Status`). -/
structure Resp where
  statusCode : Nat
  status : String
deriving DecidableEq

/-- The `httpConn` state: target URL, stored credentials, client timeout,
the send buffer `buf`, and the stored response `resp` that subsequent
`Read` calls stream from. -/
structure Conn where
  url : String
  username : String
  password : String
  timeout : Nat
  buf : String
  resp : Option Resp
deriving DecidableEq

/-- `NewHTTPClient` (lines 32-65): the connection it constructs. The
`username` and `password` arguments are accepted but the connection is
built with empty-string credentials; the buffer starts empty and no
response is stored. -/
def newHTTPClientConn (url : String) (username password : String)
    (timeout : Nat) : Conn :=
  { url := url, username := "", password := "", timeout := timeout,
    buf := "", resp := none }

/-- An outgoing HTTP request as built by `Push`. -/
structure HRequest where
  method : String
  url : String
  headers : List (String × String)
  body : String
deriving DecidableEq

/-- Models `requ.SetBasicAuth` from net/http: attaching an Authorization
header derived from the credentials (the stdlib base64 encoding is
abstracted; only presence and dependence on the credentials matter). -/
def basicAuthHeader (username password : String) : String × String :=
  ("Authorization", "Basic " ++ username ++ ":" ++ password)

/-- The POST request `httpConn.Push` builds (lines 91-103): the
connection URL, the buffered body, basic auth attached only when both
stored credentials are non-empty, and the three fixed headers. -/
def pushRequest (c : Conn) : HRequest :=
  { method := "POST", url := c.url,
    headers :=
      (if c.username ≠ "" ∧ c.password ≠ "" then
        [basicAuthHeader c.username c.password]
      else []) ++
      [("Content-Type", "application/lumberjack"),
       ("Accept", "application/lumberjack"),
       ("X-Lumberjack-Version", "2.0")],
    body := c.buf }

/-- `httpConn.Push` (lines 90-116): build one POST to the connection URL
with the buffered body and issue it. `doResult` is the outcome of
`c.http.Do`. A transport error is returned as-is; a non-200 status
yields the error `HTTP endpoint returned status '<status>'` and the
response is not stored; on 200 the response is stored for subsequent
reads. Returns the new connection state, the error, and the issued
requests. -/
def push (c : Conn) (doResult : Except String Resp) :
    Conn × Option String × List HRequest :=
  let requ : HRequest := pushRequest c
  match doResult with
  | Except.error e => (c, some e, [requ])
  | Except.ok resp =>
    if resp.statusCode ≠ 200 then
      (c, some ("HTTP endpoint returned status \x27" ++ resp.status ++ "\x27"),
       [requ])
    else
      ({ c with resp := some resp }, none, [requ])

/-- `httpConn.Reset` (lines 86-88): empty the send buffer. -/
def reset (c : Conn) : Conn := { c with buf := "" }

/-- `HttpClient.Send` (lines 67-84): reset the connection's send buffer,
encode the batch into it through the v2 wire codec (out of scope here,
abstracted as `encode`, appended via `httpConn.Write`), then `Push`. The
final `AwaitACK` streams the stored response and is not modelled. -/
def send (c : Conn) (encode : List β → String) (data : List β)
    (doResult : Except String Resp) : Conn × Option String × List HRequest :=
  let c1 := reset c
  let c2 := { c1 with buf := c1.buf ++ encode data }
  push c2 doResult

end Client

section TraceLemmas

variable {α : Type}

theorem writesOf_append (a b : List (ES.Act α)) :
    ES.writesOf (a ++ b) = ES.writesOf a ++ ES.writesOf b := by
  induction a with
  | nil => rfl
  | cons x t ih => cases x <;> simp [ES.writesOf, ih]

theorem enqsOf_append (a b : List (ES.Act α)) :
    ES.enqsOf (a ++ b) = ES.enqsOf a ++ ES.enqsOf b := by
  induction a with
  | nil => rfl
  | cons x t ih => cases x <;> simp [ES.enqsOf, ih]

theorem awaitsOf_append (a b : List (ES.Act α)) :
    ES.awaitsOf (a ++ b) = ES.awaitsOf a ++ ES.awaitsOf b := by
  induction a with
  | nil => rfl
  | cons x t ih => cases x <;> simp [ES.awaitsOf, ih]

theorem writesOf_writes (ws : List String) :
    ES.writesOf (ws.map (ES.Act.write (α := α))) = ws := by
  induction ws with
  | nil => rfl
  | cons s t ih => simp [ES.writesOf, ih]

theorem enqsOf_writes (ws : List String) :
    ES.enqsOf (ws.map (ES.Act.write (α := α))) = [] := by
  induction ws with
  | nil => rfl
  | cons s t ih => simp [ES.enqsOf, ih]

theorem awaitsOf_writes (ws : List String) :
    ES.awaitsOf (ws.map (ES.Act.write (α := α))) = [] := by
  induction ws with
  | nil => rfl
  | cons s t ih => simp [ES.awaitsOf, ih]

theorem enqsOf_drainStep (silent : Bool) (g : ES.Info α) (first : Bool) :
    ES.enqsOf (ES.drainStep silent g first).1 = [g.batch] := by
  unfold ES.drainStep
  split
  · rfl
  · split
    · rfl
    · simp [ES.enqsOf, enqsOf_append, enqsOf_writes]

theorem enqsOf_drain (silent : Bool) (gs : List (ES.Info α)) (first : Bool) :
    ES.enqsOf (ES.drain silent gs first) = gs.map ES.Info.batch := by
  induction gs generalizing first with
  | nil => rfl
  | cons g rest ih =>
      simp [ES.drain, enqsOf_append, enqsOf_drainStep, ih]

theorem writesOf_enqs {α : Type} (gs : List (ES.Info α)) :
    ES.writesOf (gs.map (fun g => ES.Act.enq g.batch)) = [] := by
  induction gs with
  | nil => rfl
  | cons g t ih => simp [ES.writesOf, ih]

theorem awaitsOf_enqs {α : Type} (gs : List (ES.Info α)) :
    ES.awaitsOf (gs.map (fun g => ES.Act.enq g.batch)) = [] := by
  induction gs with
  | nil => rfl
  | cons g t ih => simp [ES.awaitsOf, ih]

theorem silent_drain_trace {α : Type} (gs : List (ES.Info α)) (first : Bool) :
    ES.drain true gs first = gs.map (fun g => ES.Act.enq g.batch) := by
  induction gs generalizing first with
  | nil => rfl
  | cons g rest ih => simp [ES.drain, ES.drainStep, ih]

theorem push_requests (c : Client.Conn) (d : Except String Client.Resp) :
    (Client.push c d).2.2 = [Client.pushRequest c] := by
  unfold Client.push
  cases d with
  | error e => rfl
  | ok resp =>
      dsimp only
      split
      · rfl
      · rfl

theorem residual_flatten {α : Type} (evs : List (α × α)) (ms : List α) :
    ((if evs.length > 0 then [(⟨evs, ms⟩ : ES.Info α)] else []).map
      ES.Info.batch).flatten = evs := by
  cases evs <;> simp

theorem flatten_formGroupsAux {α : Type} (split : Nat) :
    ∀ (t : List (ES.Tok α)) (evs : List (α × α)) (ms : List α) (c : Nat),
      (((ES.formGroupsAux split t evs ms c).1).map ES.Info.batch).flatten
        = evs ++ ES.acceptedPairs t
  | [], evs, ms, c => by
      simp [ES.formGroupsAux, ES.acceptedPairs, residual_flatten]
  | ES.Tok.err :: t, evs, ms, c => by
      simp [ES.formGroupsAux, ES.acceptedPairs, residual_flatten]
  | [ES.Tok.ok m], evs, ms, c => by
      simp [ES.formGroupsAux, ES.acceptedPairs, residual_flatten]
  | ES.Tok.ok m :: ES.Tok.err :: t, evs, ms, c => by
      simp [ES.formGroupsAux, ES.acceptedPairs, residual_flatten]
  | ES.Tok.ok m :: ES.Tok.ok e :: rest, evs, ms, c => by
      rw [ES.formGroupsAux, ES.acceptedPairs]
      by_cases h :
          (evs ++ [(e, m)]).length = ES.appendCap evs.length c
      · simp only [h, if_pos rfl, List.map_cons, List.flatten_cons]
        simp [flatten_formGroupsAux split rest [] [] split]
      · simp only [if_neg h,
          flatten_formGroupsAux split rest (evs ++ [(e, m)]) (ms ++ [m])
            (ES.appendCap evs.length c)]
        simp

theorem groupSizes_add_left (s n : Nat) (hs : 0 < s) :
    ES.groupSizes s (s + n) = s :: ES.groupSizes s n := by
  unfold ES.groupSizes
  rw [Nat.add_comm s n, Nat.add_div_right n hs, Nat.add_mod_right n s,
    List.replicate_succ]
  simp

theorem sum_groupSizes (s n : Nat) (hs : 0 < s) :
    (ES.groupSizes s n).sum = n := by
  unfold ES.groupSizes
  by_cases h : n % s = 0
  · rw [if_pos h]
    simp only [List.append_nil, List.sum_replicate, smul_eq_mul]
    conv_rhs => rw [← Nat.div_add_mod n s]
    rw [h, Nat.add_zero, Nat.mul_comm]
  · rw [if_neg h]
    simp only [List.sum_append, List.sum_replicate, smul_eq_mul,
      List.sum_cons, List.sum_nil, Nat.add_zero]
    conv_rhs => rw [← Nat.div_add_mod n s]
    rw [Nat.mul_comm]

theorem sizes_formGroupsAux {α : Type} (s : Nat) (hs : 0 < s) :
    ∀ (l : List (α × α)) (evs : List (α × α)) (ms : List α),
      evs.length < s → ms.length = evs.length →
      ((ES.formGroupsAux s (ES.pairsStream l) evs ms s).1.map
          (fun g => g.batch.length) = ES.groupSizes s (evs.length + l.length))
      ∧ ((ES.formGroupsAux s (ES.pairsStream l) evs ms s).1.map
          (fun g => g.meta.length) = ES.groupSizes s (evs.length + l.length))
      ∧ (ES.formGroupsAux s (ES.pairsStream l) evs ms s).2 = false
  | [], evs, ms => by
      intro hlt hms
      have hsz : ES.groupSizes s (evs.length + ([] : List (α × α)).length) =
          if evs.length = 0 then [] else [evs.length] := by
        unfold ES.groupSizes
        rw [List.length_nil, Nat.add_zero, Nat.div_eq_of_lt hlt,
          Nat.mod_eq_of_lt hlt]
        simp
      refine ⟨?_, ?_, rfl⟩ <;>
        · rw [hsz]
          cases evs with
          | nil => simp [ES.pairsStream, ES.formGroupsAux]
          | cons a t => simp [ES.pairsStream, ES.formGroupsAux, hms]
  | p :: l, evs, ms => by
      intro hlt hms
      rw [ES.pairsStream, ES.formGroupsAux]
      have hcap : ES.appendCap evs.length s = s := by
        unfold ES.appendCap
        rw [if_pos hlt]
      by_cases h : (evs ++ [(p.2, p.1)]).length = ES.appendCap evs.length s
      · have hfull : evs.length + 1 = s := by
          simpa [hcap] using h
        have ih := sizes_formGroupsAux s hs l [] []
          (by simpa using hs) rfl
        have harith : evs.length + (p :: l).length = s + l.length := by
          simp only [List.length_cons]
          omega
        rw [if_pos h, harith, groupSizes_add_left s l.length hs]
        refine ⟨?_, ?_, ih.2.2⟩
        · simp only [List.map_cons, ih.1]
          simp [hfull]
        · simp only [List.map_cons, ih.2.1]
          simp [hms, hfull]
      · have hlt' : (evs ++ [(p.2, p.1)]).length < s := by
          rw [hcap] at h
          simp only [List.length_append, List.length_cons,
            List.length_nil] at h ⊢
          omega
        have hms' : (ms ++ [p.1]).length = (evs ++ [(p.2, p.1)]).length := by
          simp [hms]
        have ih := sizes_formGroupsAux s hs l (evs ++ [(p.2, p.1)])
          (ms ++ [p.1]) hlt' hms'
        have harith : (evs ++ [(p.2, p.1)]).length + l.length =
            evs.length + (p :: l).length := by
          simp only [List.length_append, List.length_cons, List.length_nil]
          omega
        rw [if_neg h, hcap]
        rw [harith] at ih
        exact ih

theorem drain_writes_notfirst {α : Type} (gs : List (ES.Info α)) :
    ES.writesOf (ES.drain false gs false) =
      List.replicate ((gs.map (fun g => g.meta.length)).sum) ES.statusNext := by
  induction gs with
  | nil => rfl
  | cons g rest ih =>
      by_cases h : g.meta.length = 0
      · have hstep : ES.drainStep false g false =
            ([ES.Act.enq g.batch], false) := by
          simp [ES.drainStep, h]
        simp only [ES.drain, hstep]
        simpa [ES.writesOf, h] using ih
      · have hstep : ES.drainStep false g false =
            (ES.Act.enq g.batch ::
              (List.replicate g.meta.length ES.statusNext).map ES.Act.write ++
              [ES.Act.await g.batch], false) := by
          simp [ES.drainStep, h]
        simp only [ES.drain, hstep]
        simp only [List.append_eq, writesOf_append, ES.writesOf,
          writesOf_writes, List.nil_append, List.append_nil, ih,
          List.map_cons, List.sum_cons]
        rw [← List.replicate_add]

theorem drain_writes_first {α : Type} (gs : List (ES.Info α)) :
    ES.writesOf (ES.drain false gs true) =
      ES.statusEntries ((gs.map (fun g => g.meta.length)).sum) := by
  induction gs with
  | nil => rfl
  | cons g rest ih =>
      by_cases h : g.meta.length = 0
      · have hstep : ES.drainStep false g true =
            ([ES.Act.enq g.batch], true) := by
          simp [ES.drainStep, h]
        simp only [ES.drain, hstep]
        simpa [ES.writesOf, h] using ih
      · obtain ⟨n, hn⟩ : ∃ n, g.meta.length = n + 1 :=
          ⟨g.meta.length - 1, by omega⟩
        have hstep : ES.drainStep false g true =
            (ES.Act.enq g.batch ::
              (ES.statusFirst ::
                List.replicate (g.meta.length - 1) ES.statusNext).map
                  ES.Act.write ++
              [ES.Act.await g.batch], false) := by
          simp [ES.drainStep, h]
        simp only [ES.drain, hstep]
        simp only [List.append_eq, writesOf_append, ES.writesOf,
          writesOf_writes, List.nil_append, List.append_nil,
          drain_writes_notfirst, List.map_cons, List.sum_cons]
        rw [hn]
        have harith : n + 1 + (rest.map (fun g => g.meta.length)).sum =
            (n + (rest.map (fun g => g.meta.length)).sum) + 1 := by
          omega
        have hidx : n + 1 - 1 = n := by omega
        rw [harith, hidx, ES.statusEntries, ← List.replicate_add]

theorem acceptedPairs_pairsStream {α : Type} (l : List (α × α)) :
    ES.acceptedPairs (ES.pairsStream l) = l.map (fun p => (p.2, p.1)) := by
  induction l with
  | nil => rfl
  | cons p t ih => simp [ES.pairsStream, ES.acceptedPairs, ih]

theorem keepaliveLoop_all_success (k : Nat) :
    HTTPSrv.keepaliveLoop (List.replicate k none) =
      (List.replicate k HTTPSrv.Eff.keepaliveWrite, true) := by
  induction k with
  | zero => rfl
  | succ n ih =>
      simp [List.replicate_succ, HTTPSrv.keepaliveLoop,
        HTTPSrv.chunkedKeepalive, ih]

end TraceLemmas

/-- Claim C1: the spec requires `chunkedACKWriter.Keepalive` to force a
flush after a successful keepalive write so the client observes the
frame immediately. The code flushes only when the underlying write
FAILS (`if err != nil`), so a successful keepalive write is never
flushed: at the failing input (underlying writer returns nil) no flush
happens, and a keepalive wait loop of `k` successful timer fires (e.g.
`k = 3` with interval 100ms and completion delayed 350ms) produces `k`
unflushed keepalive frames and no flush effect at all. -/
theorem http_keepalive_success_never_flushed :
    (HTTPSrv.chunkedKeepalive none).2 = false ∧
    (HTTPSrv.chunkedKeepalive none).1 = none ∧
    (∀ e, (HTTPSrv.chunkedKeepalive e).2 = true ↔ e ≠ none) ∧
    (∀ k, (HTTPSrv.keepaliveLoop (List.replicate k none)).1 =
      List.replicate k HTTPSrv.Eff.keepaliveWrite) := by
  refine ⟨rfl, rfl, ?_, ?_⟩
  · intro e
    cases e with
    | none => simp [HTTPSrv.chunkedKeepalive]
    | some s => simp [HTTPSrv.chunkedKeepalive]
  · intro k
    rw [keepaliveLoop_all_success]

/-- Claim C2 (counterexample): at a non-silent drain of a single
one-event group, the drain task's trace is
`[enq, write status, await]` — the status entry is written BEFORE the
gate wait, so it is not true that entries are appended only after the
gate has been signaled. -/
theorem es_write_before_await_counterexample :
    ES.writesOnlyAfterAwait
      (ES.drain false [(⟨[(1, 0)], [0]⟩ : ES.Info Nat)] true) = false := by
  decide

/-- Claim C2 (amended): for every group drained in a non-silent request,
the task first enqueues the group's Batch onto the ingestion channel,
then appends the per-event status entries (the first entry of the
response unprefixed, every further entry comma-prefixed) to the
streamed JSON array, and only then waits on that Batch's gate before
draining the next group. -/
theorem es_drain_group_order {α : Type} (g : ES.Info α)
    (rest : List (ES.Info α)) (first : Bool) (h : g.meta ≠ []) :
    ES.drain false (g :: rest) first =
      ES.Act.enq g.batch ::
        ((if first then
            ES.statusFirst :: List.replicate (g.meta.length - 1) ES.statusNext
          else
            List.replicate g.meta.length ES.statusNext).map ES.Act.write ++
         (ES.Act.await g.batch :: ES.drain false rest false)) := by
  have hlen : ¬ g.meta.length = 0 := by
    simpa using h
  cases first <;> simp [ES.drain, ES.drainStep, hlen]

/-- Witness for `es_drain_group_order` at a single one-event group. -/
theorem es_drain_group_order_witness :
    ES.drain false [(⟨[(1, 0)], [0]⟩ : ES.Info Nat)] true =
      [ES.Act.enq [(1, 0)], ES.Act.write ES.statusFirst,
       ES.Act.await [(1, 0)]] := by
  simpa using
    es_drain_group_order (⟨[(1, 0)], [0]⟩ : ES.Info Nat) [] true (by decide)

/-- Claim C3 (counterexample): a silent-mode drain of one one-event
group enqueues the Batch but performs no gate wait at all — the claim
that the gate is still waited on before the next group is drained is
false. -/
theorem es_silent_await_counterexample :
    ES.enqsOf (ES.serveBulk 2 true
      (⟨"POST", false, none, [ES.Tok.ok 0, ES.Tok.ok 1]⟩ : ES.Request Nat)).2 =
      [[(1, 0)]] ∧
    ES.awaitsOf (ES.serveBulk 2 true
      (⟨"POST", false, none, [ES.Tok.ok 0, ES.Tok.ok 1]⟩ : ES.Request Nat)).2 =
      [] := by
  decide

/-- Claim C3 (amended): in silent mode no per-item status entry is ever
written (the response body is exactly the opening and closing brackets)
and every formed group's Batch is still enqueued onto the ingestion
channel in order, preserving the enqueue backpressure; but the drain
task skips the gate wait entirely (`continue` right after the enqueue),
so no group's gate is waited on. -/
theorem es_silent_mode {α : Type} (split : Nat) (r : ES.Request α)
    (hg : ¬(r.contentEncodingGzip ∧ r.gzipErr.isSome)) :
    ES.writesOf (ES.serveBulk split true r).2 =
      ["\x7b\"items\": [", "]\x7d"] ∧
    ES.enqsOf (ES.serveBulk split true r).2 =
      (ES.formGroups split r.stream).1.map ES.Info.batch ∧
    ES.awaitsOf (ES.serveBulk split true r).2 = [] := by
  unfold ES.serveBulk
  rw [if_neg hg]
  refine ⟨?_, ?_, ?_⟩
  · simp [ES.writesOf, writesOf_append, silent_drain_trace, writesOf_enqs]
  · simp [ES.enqsOf, enqsOf_append, enqsOf_drain]
  · simp [ES.awaitsOf, awaitsOf_append, silent_drain_trace, awaitsOf_enqs]

/-- Witness for `es_silent_mode` at a 2-event request with split 2. -/
theorem es_silent_mode_witness :
    ES.writesOf (ES.serveBulk 2 true
      (⟨"POST", false, none,
        [ES.Tok.ok 0, ES.Tok.ok 1, ES.Tok.ok 2, ES.Tok.ok 3]⟩ :
          ES.Request Nat)).2 = ["\x7b\"items\": [", "]\x7d"] ∧
    ES.enqsOf (ES.serveBulk 2 true
      (⟨"POST", false, none,
        [ES.Tok.ok 0, ES.Tok.ok 1, ES.Tok.ok 2, ES.Tok.ok 3]⟩ :
          ES.Request Nat)).2 =
      (ES.formGroups 2
        [ES.Tok.ok 0, ES.Tok.ok 1, ES.Tok.ok 2,
         ES.Tok.ok (3 : Nat)]).1.map ES.Info.batch ∧
    ES.awaitsOf (ES.serveBulk 2 true
      (⟨"POST", false, none,
        [ES.Tok.ok 0, ES.Tok.ok 1, ES.Tok.ok 2, ES.Tok.ok 3]⟩ :
          ES.Request Nat)).2 = [] :=
  es_silent_mode 2 _ (by decide)

/-- Claim C4: a POST to the version-dispatching bulk handler whose
version header is absent (`""`) or not in the version table is answered
400 Bad Request with no effect at all: no codec constructed, no batch
read, nothing enqueued onto the ingestion channel. -/
theorem http_bad_version_no_side_effects (keepalive : Nat)
    (r : HTTPSrv.Request) (hm : r.method = "POST")
    (hv : r.version = "" ∨ HTTPSrv.versions r.version = none) :
    HTTPSrv.serveHTTP keepalive r = (400, []) ∧
    HTTPSrv.enqsOf (HTTPSrv.serveHTTP keepalive r).2 = [] := by
  have h : HTTPSrv.serveBulk keepalive r = (400, []) := by
    unfold HTTPSrv.serveBulk
    rcases hv with hv | hv
    · rw [if_pos hv]
    · by_cases h0 : r.version = ""
      · rw [if_pos h0]
      · rw [if_neg h0, hv]
  have hh : HTTPSrv.serveHTTP keepalive r = (400, []) := by
    unfold HTTPSrv.serveHTTP
    rw [hm, if_neg (show ¬("POST" = "HEAD") by decide), if_pos rfl]
    exact h
  exact ⟨hh, by rw [hh]; rfl⟩

/-- Witness for `http_bad_version_no_side_effects` at a POST without a
version header. -/
theorem http_bad_version_witness :
    HTTPSrv.serveHTTP 0
      ⟨"POST", "", none, Except.ok 0, false, false, []⟩ = (400, []) ∧
    HTTPSrv.enqsOf (HTTPSrv.serveHTTP 0
      ⟨"POST", "", none, Except.ok 0, false, false, []⟩).2 = [] :=
  http_bad_version_no_side_effects 0 _ rfl (Or.inl rfl)

/-- Claim C7: the push client's send resets the buffer before encoding
(the issued body is exactly the freshly encoded batch, whatever was
buffered before), issues exactly one POST carrying the three fixed
headers, and a non-200 response yields an error carrying the response
status text while storing no response for subsequent reads. -/
theorem client_push_non200 {β : Type} (c : Client.Conn)
    (encode : List β → String) (data : List β) (resp : Client.Resp)
    (hu : c.username = "") (hr : c.resp = none)
    (hnz : resp.statusCode ≠ 200) :
    (Client.send c encode data (Except.ok resp)).2.2 =
      [{ method := "POST", url := c.url,
         headers := [("Content-Type", "application/lumberjack"),
                     ("Accept", "application/lumberjack"),
                     ("X-Lumberjack-Version", "2.0")],
         body := encode data }] ∧
    (Client.send c encode data (Except.ok resp)).2.1 =
      some ("HTTP endpoint returned status \x27" ++ resp.status ++ "\x27") ∧
    (Client.send c encode data (Except.ok resp)).1.resp = none := by
  unfold Client.send Client.push Client.pushRequest Client.reset
  simp [hu, hnz, hr]

/-- Witness for `client_push_non200` on a freshly constructed client and
a 503 response. -/
theorem client_push_non200_witness :
    (Client.send
      (Client.newHTTPClientConn "http://logs.example" "u" "p" 30)
      (fun l => String.join l) ["payload"]
      (Except.ok ⟨503, "503 Service Unavailable"⟩)).2.2 =
      [{ method := "POST", url := "http://logs.example",
         headers := [("Content-Type", "application/lumberjack"),
                     ("Accept", "application/lumberjack"),
                     ("X-Lumberjack-Version", "2.0")],
         body := String.join ["payload"] }] ∧
    (Client.send
      (Client.newHTTPClientConn "http://logs.example" "u" "p" 30)
      (fun l => String.join l) ["payload"]
      (Except.ok ⟨503, "503 Service Unavailable"⟩)).2.1 =
      some ("HTTP endpoint returned status \x27503 Service Unavailable\x27") ∧
    (Client.send
      (Client.newHTTPClientConn "http://logs.example" "u" "p" 30)
      (fun l => String.join l) ["payload"]
      (Except.ok ⟨503, "503 Service Unavailable"⟩)).1.resp = none :=
  client_push_non200
    (Client.newHTTPClientConn "http://logs.example" "u" "p" 30)
    (fun l => String.join l) ["payload"] ⟨503, "503 Service Unavailable"⟩
    rfl rfl (by decide)

/-- Claim C8: any request whose method is neither HEAD nor POST is
answered 405 Method Not Allowed by both servers, with an empty effect
trace: no body read, nothing enqueued. -/
theorem method_not_allowed {α : Type} (split : Nat) (silent : Bool)
    (keepalive : Nat) (re : ES.Request α) (rv : HTTPSrv.Request)
    (h1 : ¬ re.method = "HEAD") (h2 : ¬ re.method = "POST")
    (h3 : ¬ rv.method = "HEAD") (h4 : ¬ rv.method = "POST") :
    ES.serveHTTP split silent re = (405, []) ∧
    HTTPSrv.serveHTTP keepalive rv = (405, []) := by
  constructor
  · unfold ES.serveHTTP
    rw [if_neg h1, if_neg h2]
  · unfold HTTPSrv.serveHTTP
    rw [if_neg h3, if_neg h4]

/-- Witness for `method_not_allowed` at a GET and a PUT request. -/
theorem method_not_allowed_witness :
    ES.serveHTTP 2 false
      (⟨"GET", false, none, []⟩ : ES.Request Nat) = (405, []) ∧
    HTTPSrv.serveHTTP 0
      ⟨"PUT", "2.0", none, Except.ok 0, false, false, []⟩ = (405, []) :=
  method_not_allowed 2 false 0 _ _
    (by decide) (by decide) (by decide) (by decide)

/-- Claim C9: an ES-bulk POST declaring gzip content encoding whose body
fails gzip reader construction is answered 400 with the error text as
the only body write — the items array is never opened and no batch is
created or enqueued. -/
theorem es_gzip_error_400 {α : Type} (split : Nat) (silent : Bool)
    (r : ES.Request α) (e : String) (hm : r.method = "POST")
    (hgz : r.contentEncodingGzip = true) (he : r.gzipErr = some e) :
    ES.serveHTTP split silent r = (400, [ES.Act.write e]) ∧
    ES.enqsOf (ES.serveHTTP split silent r).2 = [] := by
  have hcond : (r.contentEncodingGzip ∧ r.gzipErr.isSome) :=
    ⟨hgz, by rw [he]; rfl⟩
  have hb : ES.serveBulk split silent r = (400, [ES.Act.write e]) := by
    unfold ES.serveBulk
    rw [if_pos hcond, he]
    rfl
  have hh : ES.serveHTTP split silent r = (400, [ES.Act.write e]) := by
    unfold ES.serveHTTP
    rw [hm, if_neg (show ¬("POST" = "HEAD") by decide), if_pos rfl]
    exact hb
  exact ⟨hh, by rw [hh]; rfl⟩

/-- Witness for `es_gzip_error_400` at a request with a corrupt gzip
body. -/
theorem es_gzip_error_400_witness :
    ES.serveHTTP 2 false
      (⟨"POST", true, some "gzip: invalid header", []⟩ : ES.Request Nat) =
      (400, [ES.Act.write "gzip: invalid header"]) ∧
    ES.enqsOf (ES.serveHTTP 2 false
      (⟨"POST", true, some "gzip: invalid header", []⟩ :
        ES.Request Nat)).2 = [] :=
  es_gzip_error_400 2 false _ "gzip: invalid header" rfl rfl rfl

/-- Claim C10: `NewHTTPClient` discards the supplied credentials — two
constructions differing only in username/password yield identical
connections, `Push` behaves identically on them, and the issued request
carries exactly the three fixed headers and no Authorization header. -/
theorem client_credentials_discarded (url u1 p1 u2 p2 : String) (tmo : Nat)
    (doResult : Except String Client.Resp) :
    Client.newHTTPClientConn url u1 p1 tmo =
      Client.newHTTPClientConn url u2 p2 tmo ∧
    Client.push (Client.newHTTPClientConn url u1 p1 tmo) doResult =
      Client.push (Client.newHTTPClientConn url u2 p2 tmo) doResult ∧
    (Client.push (Client.newHTTPClientConn url u1 p1 tmo) doResult).2.2.map
        Client.HRequest.headers =
      [[("Content-Type", "application/lumberjack"),
        ("Accept", "application/lumberjack"),
        ("X-Lumberjack-Version", "2.0")]] := by
  refine ⟨rfl, rfl, ?_⟩
  rw [push_requests]
  simp [Client.pushRequest, Client.newHTTPClientConn]

/-- Claim C5: for every ES-bulk POST (past the gzip-input check), every
metadata/source pair the decode loop accepts is enqueued onto the
ingestion channel — whether the loop stops at end-of-input or on a
decode error, the non-empty residual group is flushed as a final batch,
so the concatenation of all enqueued batches is exactly the accepted
pairs — and the response body always opens with the items array and is
always closed with the JSON terminator. -/
theorem es_no_drop_always_closed {α : Type} (split : Nat) (silent : Bool)
    (r : ES.Request α) (hm : r.method = "POST")
    (hg : ¬(r.contentEncodingGzip ∧ r.gzipErr.isSome)) :
    (ES.enqsOf (ES.serveHTTP split silent r).2).flatten =
      ES.acceptedPairs r.stream ∧
    (ES.writesOf (ES.serveHTTP split silent r).2).head? =
      some "\x7b\"items\": [" ∧
    (ES.writesOf (ES.serveHTTP split silent r).2).getLast? =
      some "]\x7d" := by
  have hS : ES.serveHTTP split silent r = ES.serveBulk split silent r := by
    unfold ES.serveHTTP
    rw [hm, if_neg (show ¬("POST" = "HEAD") by decide), if_pos rfl]
  rw [hS]
  unfold ES.serveBulk
  rw [if_neg hg]
  refine ⟨?_, ?_, ?_⟩
  · simp only [ES.enqsOf, enqsOf_append, enqsOf_drain, ES.formGroups]
    simp [flatten_formGroupsAux]
  · simp [ES.writesOf]
  · simp only [ES.writesOf, writesOf_append]
    rw [show ∀ (xs : List String),
          "\x7b\"items\": [" :: (xs ++ ["]\x7d"]) =
            ("\x7b\"items\": [" :: xs) ++ ["]\x7d"] by intro xs; rfl]
    rw [List.getLast?_concat]

/-- Witness for `es_no_drop_always_closed` at a request whose body holds
one complete pair and then a decode error. -/
theorem es_no_drop_always_closed_witness :
    (ES.enqsOf (ES.serveHTTP 2 false
      (⟨"POST", false, none,
        [ES.Tok.ok 0, ES.Tok.ok 1, ES.Tok.ok 2, ES.Tok.err]⟩ :
        ES.Request Nat)).2).flatten =
      ES.acceptedPairs
        [ES.Tok.ok 0, ES.Tok.ok 1, ES.Tok.ok 2, ES.Tok.err (α := Nat)] ∧
    (ES.writesOf (ES.serveHTTP 2 false
      (⟨"POST", false, none,
        [ES.Tok.ok 0, ES.Tok.ok 1, ES.Tok.ok 2, ES.Tok.err]⟩ :
        ES.Request Nat)).2).head? = some "\x7b\"items\": [" ∧
    (ES.writesOf (ES.serveHTTP 2 false
      (⟨"POST", false, none,
        [ES.Tok.ok 0, ES.Tok.ok 1, ES.Tok.ok 2, ES.Tok.err]⟩ :
        ES.Request Nat)).2).getLast? = some "]\x7d" :=
  es_no_drop_always_closed 2 false _ rfl (by decide)

/-- Claim C6: for split threshold `s > 0` and a well-formed body of `n`
metadata/source pairs, the decode loop terminates without error and
forms groups in input order of size exactly `s` until fewer than `s`
pairs remain, then one final group of size `n mod s` when the remainder
is non-zero; the concatenation of the groups' batches is the input in
original order, and the non-silent drain writes exactly `n` status
entries (the first unprefixed, the rest comma-prefixed). -/
theorem es_grouping {α : Type} (s : Nat) (hs : 0 < s) (l : List (α × α)) :
    (ES.formGroups s (ES.pairsStream l)).2 = false ∧
    ((ES.formGroups s (ES.pairsStream l)).1.map (fun g => g.batch.length))
      = ES.groupSizes s l.length ∧
    (((ES.formGroups s (ES.pairsStream l)).1.map ES.Info.batch).flatten
      = l.map (fun p => (p.2, p.1))) ∧
    ES.writesOf (ES.drain false (ES.formGroups s (ES.pairsStream l)).1 true)
      = ES.statusEntries l.length := by
  have h := sizes_formGroupsAux s hs l [] [] (by simpa using hs) rfl
  rw [List.length_nil, Nat.zero_add] at h
  refine ⟨h.2.2, h.1, ?_, ?_⟩
  · rw [ES.formGroups, flatten_formGroupsAux, acceptedPairs_pairsStream]
    rfl
  · rw [drain_writes_first, ES.formGroups, h.2.1,
      sum_groupSizes s l.length hs]

/-- Witness for `es_grouping` at split 2 and 5 input pairs: group sizes
[2, 2, 1]. -/
theorem es_grouping_witness :
    (ES.formGroups 2
      (ES.pairsStream [(0, 1), (2, 3), (4, 5), (6, 7), (8, (9 : Nat))])).2 =
      false ∧
    ((ES.formGroups 2
      (ES.pairsStream
        [(0, 1), (2, 3), (4, 5), (6, 7), (8, (9 : Nat))])).1.map
        (fun g => g.batch.length)) =
      ES.groupSizes 2
        [(0, 1), (2, 3), (4, 5), (6, 7), (8, (9 : Nat))].length ∧
    (((ES.formGroups 2
      (ES.pairsStream
        [(0, 1), (2, 3), (4, 5), (6, 7), (8, (9 : Nat))])).1.map
        ES.Info.batch).flatten =
      [(0, 1), (2, 3), (4, 5), (6, 7), (8, (9 : Nat))].map
        (fun p => (p.2, p.1))) ∧
    ES.writesOf (ES.drain false
      (ES.formGroups 2
        (ES.pairsStream
          [(0, 1), (2, 3), (4, 5), (6, 7), (8, (9 : Nat))])).1 true) =
      ES.statusEntries
        [(0, 1), (2, 3), (4, 5), (6, 7), (8, (9 : Nat))].length :=
  es_grouping 2 (by decide) [(0, 1), (2, 3), (4, 5), (6, 7), (8, 9)]
